import Mathlib

/-!
Verification development for `get_mag_toc.py`, a unified table-of-contents
extractor for magazine PDFs (brands: The New Yorker, The Atlantic, Harper's
Magazine).

The Python source is shallowly embedded:
* Python strings are Lean `String`s; character-level work is done on `s.data`
  (`List Char`).  `str.upper`/`str.lower` are modelled on ASCII letters (the
  source's section vocabulary and scanning are ASCII); `str.strip` and the
  regex class `\s` use the Python whitespace set; `\w` is modelled as the
  ASCII word characters.
* The `re` patterns of the source are embedded as explicit pattern ASTs
  (`RE`) interpreted by a backtracking matcher with Python's preferences:
  ordered alternation, greedy/lazy quantifiers, leftmost search.  The matcher
  is fuel-indexed for structural termination; the fuel bounds only the
  nesting depth of the match (pattern size plus one per consumed character),
  so `input length + 200` is never exhausted by the source's patterns.
* Python `dict` (insertion-ordered) becomes an insertion-ordered association
  list; `list.sort(key=...)` (a stable sort) becomes `List.insertionSort`
  with the key order (insertion sort is stable, and all stable sorts agree).
* Fallible external-tool calls (`pdftotext`, `pdftoppm`, `tesseract`) are
  oracles in an `Env` record returning `Except Unit`; a raised exception is
  `.error ()`.
-/

namespace MagToc

/-! ### Character classes and Python string helpers -/

/-- Python whitespace (`str.strip` / regex `\s` for `str` patterns). -/
def isSpaceCh (c : Char) : Bool :=
  c = ' ' || c = '\t' || c = '\n' || c = '\r' || c.val = 11 || c.val = 12 ||
  (28 ≤ c.val && c.val ≤ 31) || c.val = 0x85 || c.val = 0xA0 || c.val = 0x1680 ||
  (0x2000 ≤ c.val && c.val ≤ 0x200A) || c.val = 0x2028 || c.val = 0x2029 ||
  c.val = 0x202F || c.val = 0x205F || c.val = 0x3000

def isDigitCh (c : Char) : Bool := ('0' ≤ c) && (c ≤ '9')

def isUpperCh (c : Char) : Bool := ('A' ≤ c) && (c ≤ 'Z')

/-- Regex `[a-zA-Z]`. -/
def isAsciiAlphaCh (c : Char) : Bool :=
  (('A' ≤ c) && (c ≤ 'Z')) || (('a' ≤ c) && (c ≤ 'z'))

/-- Regex `\w`, modelled on ASCII. -/
def isWordCh (c : Char) : Bool := isAsciiAlphaCh c || isDigitCh c || c = '_'

/-- `str.strip()`. -/
def pyStrip (s : String) : String :=
  ⟨((s.data.dropWhile isSpaceCh).reverse.dropWhile isSpaceCh).reverse⟩

/-- `str.upper()` (ASCII model). -/
def pyUpper (s : String) : String := ⟨s.data.map Char.toUpper⟩

/-- `str.lower()` (ASCII model). -/
def pyLower (s : String) : String := ⟨s.data.map Char.toLower⟩

/-- Split a character list at every newline. -/
def splitOnNl : List Char → List (List Char)
  | [] => [[]]
  | c :: rest =>
    if c = '\n' then [] :: splitOnNl rest
    else
      match splitOnNl rest with
      | [] => [[c]]
      | l :: ls => (c :: l) :: ls

/-- `str.splitlines()` (the modelled inputs use `\n` line terminators). -/
def pySplitlines (s : String) : List String :=
  let parts := (splitOnNl s.data).map (fun l => (⟨l⟩ : String))
  if parts.getLast? = some ("") then parts.dropLast else parts

/-- `int()` on a string of decimal digits. -/
def natOfDigits (s : String) : Nat :=
  s.data.foldl (fun acc c => acc * 10 + (c.toNat - 48)) 0

/-- Python `needle in hay` on strings. -/
def strContains (hay needle : String) : Bool :=
  (List.range (hay.data.length + 1)).any (fun i => needle.data.isPrefixOf (hay.data.drop i))

/-- Python `hay.find(needle)`: index of the first occurrence. -/
def strFind (hay needle : String) : Option Nat :=
  (List.range (hay.data.length + 1)).find? (fun i => needle.data.isPrefixOf (hay.data.drop i))

/-- ASCII apostrophe as a string. -/
def apoS : String := ⟨[Char.ofNat 39]⟩

/-- Right single quotation mark (U+2019) as a string. -/
def rsqS : String := ⟨[Char.ofNat 0x2019]⟩

/-- ASCII double quote as a string. -/
def dqS : String := ⟨[Char.ofNat 34]⟩

/-! ### A backtracking regex interpreter

Each `re` pattern of the source is written below as an explicit `RE` value.
`reM` implements Python's backtracking search order: alternation tries the
left branch first, greedy quantifiers try longer repetitions first, lazy
quantifiers shorter ones, and each attempt runs the full continuation before
backtracking. -/

/-- Captured group spans: `(group index, start, stop)`, most recent first.
Group `0` is the whole match. -/
abbrev Caps := List (Nat × Nat × Nat)

/-- Pattern AST.  `repA` is a quantifier over a single-character class
(`{lo,hi}`, greedy or lazy); `starSeq` is `(?:...)*` over a composite body;
`wordB` is `\b`; `endA` is `$`. -/
inductive RE where
  | eps : RE
  | atom : (Char → Bool) → RE
  | seq : RE → RE → RE
  | alt : RE → RE → RE
  | grp : Nat → RE → RE
  | repA : (Char → Bool) → Nat → Option Nat → Bool → RE
  | starSeq : RE → RE
  | wordB : RE
  | endA : RE

def charAt (s : List Char) (i : Nat) : Option Char := (s.drop i).head?

def isWordAt (s : List Char) (i : Nat) : Bool :=
  match charAt s i with
  | some c => isWordCh c
  | none => false

/-- `\b`: exactly one side of the position is a word character. -/
def atBoundary (s : List Char) (i : Nat) : Bool :=
  (if i = 0 then false else isWordAt s (i - 1)) != isWordAt s i

/-- Repetition counts to try, in preference order. -/
def countList (lo hi : Nat) (greedy : Bool) : List Nat :=
  let up := (List.range (hi + 1 - lo)).map (fun d => lo + d)
  if greedy then up.reverse else up

/-- The backtracking matcher, in continuation-passing style.  The fuel
decreases on every nested call; it bounds the depth of the search stack
(pattern nesting plus star iterations), not the number of alternatives
tried, so `s.length + 200` is ample for the source's patterns. -/
def reM (s : List Char) : Nat → RE → Nat → Caps → (Nat → Caps → Option Caps) → Option Caps
  | 0, _, _, _, _ => none
  | Nat.succ f, re, i, caps, k =>
    match re with
    | .eps => k i caps
    | .atom p =>
      match charAt s i with
      | some c => if p c then k (i + 1) caps else none
      | none => none
    | .seq r1 r2 => reM s f r1 i caps (fun j cs => reM s f r2 j cs k)
    | .alt r1 r2 => (reM s f r1 i caps k).orElse (fun _ => reM s f r2 i caps k)
    | .grp g r => reM s f r i caps (fun j cs => k j ((g, i, j) :: cs))
    | .repA p lo hi greedy =>
      let run := ((s.drop i).takeWhile p).length
      let hiv := min (hi.getD run) run
      if lo > hiv then none
      else (countList lo hiv greedy).findSome? (fun c => k (i + c) caps)
    | .starSeq r =>
      (reM s f r i caps (fun j cs => if i < j then reM s f (.starSeq r) j cs k else none)).orElse
        (fun _ => k i caps)
    | .wordB => if atBoundary s i then k i caps else none
    | .endA => if i = s.length then k i caps else none

/-- Match `pat` starting exactly at position `i` (the anchored part of
`re.match` / one attempt of `re.search`). -/
def reMatchAt (pat : RE) (s : List Char) (i : Nat) : Option Caps :=
  reM s (s.length + 200) pat i [] (fun j cs => some ((0, i, j) :: cs))

/-- `re.match`: anchored at position 0. -/
def reMatch (pat : RE) (line : String) : Option Caps := reMatchAt pat line.data 0

/-- `re.search`: leftmost successful start position. -/
def reSearch (pat : RE) (line : String) : Option Caps :=
  (List.range (line.data.length + 1)).findSome? (fun i => reMatchAt pat line.data i)

/-- Boolean `re.search`. -/
def reTest (pat : RE) (line : String) : Bool := (reSearch pat line).isSome

def capSpan (caps : Caps) (g : Nat) : Option (Nat × Nat) :=
  (caps.find? (fun t => t.1 == g)).map (fun t => (t.2.1, t.2.2))

/-- Text of a captured group. -/
def capStr (s : List Char) (caps : Caps) (g : Nat) : Option String :=
  (capSpan caps g).map (fun ab => (⟨(s.drop ab.1).take (ab.2 - ab.1)⟩ : String))

/-- Group text, with `""` for an unmatched group (as in `findall` tuples). -/
def capStrD (line : String) (caps : Caps) (g : Nat) : String :=
  (capStr line.data caps g).getD ("")

/-- `re.findall`: non-overlapping leftmost matches, scanning left to right. -/
def reFindAllGo (pat : RE) (s : List Char) : Nat → Nat → List Caps
  | 0, _ => []
  | Nat.succ f, pos =>
    if pos > s.length then []
    else
      match ((List.range (s.length + 1 - pos)).map (fun d => pos + d)).findSome?
          (fun i => reMatchAt pat s i) with
      | none => []
      | some caps =>
        match capSpan caps 0 with
        | some ab => caps :: reFindAllGo pat s f (if ab.2 = ab.1 then ab.2 + 1 else ab.2)
        | none => []

def reFindAll (pat : RE) (line : String) : List Caps :=
  reFindAllGo pat line.data (line.data.length + 1) 0

/-! ### AST construction helpers -/

/-- Sequence a list of patterns. -/
def rSeq (l : List RE) : RE := l.foldr RE.seq RE.eps

/-- A literal character. -/
def rChr (c : Char) : RE := RE.atom (fun x => x = c)

/-- A literal string. -/
def rStr (s : String) : RE := rSeq (s.data.map rChr)

/-- `(?:...)?` (greedy option). -/
def rOpt (r : RE) : RE := RE.alt r RE.eps

/-- Ordered alternation of a nonempty list. -/
def rAlts (l : List RE) : RE :=
  match l with
  | [] => RE.eps
  | r :: rest => rest.foldl RE.alt r

/-- `\s*` (greedy). -/
def rWs0 : RE := RE.repA isSpaceCh 0 none true

/-- `\s+` (greedy). -/
def rWs1 : RE := RE.repA isSpaceCh 1 none true

/-- `\s{2,}` (greedy). -/
def rWs2 : RE := RE.repA isSpaceCh 2 none true

/-- `\d{lo,hi}` (greedy). -/
def rDigits (lo hi : Nat) : RE := RE.repA isDigitCh lo (some hi) true

/-- `.` (any character but newline). -/
def dotCh (c : Char) : Bool := c != '\n'

/-- `.+?` (lazy). -/
def rDotLazy1 : RE := RE.repA dotCh 1 none false

/-- `.*` (greedy). -/
def rDotStar : RE := RE.repA dotCh 0 none true

/-! ### Data model (`TocItem`) and per-brand configuration -/

/-- One article/piece entry (`@dataclass TocItem`). -/
structure TocItem where
  page : Option Nat
  title : String
  sec : Option String := none
  author : Option String := none
  deriving DecidableEq, Repr

def NY_SECTIONS : List String :=
  ["THE TALK OF THE TOWN", "PERSONAL HISTORY", "TAKES", "SHOUTS & MURMURS",
   "ANNALS OF ARTIFICIAL INTELLIGENCE", "A REPORTER AT LARGE", "PROFILES", "FICTION",
   "THE CRITICS", "BOOKS", "THE CURRENT CINEMA", "THE THEATRE", "POEMS", "GOINGS ON",
   "COVER", "CONTRIBUTORS", "TABLES FOR TWO", "MUSICAL EVENTS", "ON AND OFF THE MENU",
   "THE MAIL"]

def ATL_SECTIONS : List String :=
  ["FEATURES", "DISPATCHES", "IDEAS", "CULTURE", "POLITICS", "SCIENCE",
   "TECHNOLOGY", "BUSINESS", "BOOKS", "REVIEW", "ESSAYS", "VOICES", "CORRESPONDENCE"]

def HARPERS_SECTIONS : List String :=
  ["READINGS", "ESSAY", "REPORT", "NOTEBOOK", "LETTER", "LETTERS", "REVIEWS", "REVIEW",
   "POEM", "POETRY", "FICTION", "ART", "ARTS & LETTERS", "ANNOTATIONS", "DEPARTMENTS"]

/-- `NOISE_UPPER` (the two Harper's-index entries differ in the apostrophe
character used). -/
def NOISE_UPPER : List String :=
  ["PRICE $", "ILLUSTRATIONS BY", "WINTER PREVIEW", "THE WEEKEND ESSAY", "SUBSCRIBE",
   "THE NEW YORKER,", "LOVE BOOKS, LOVE FOLIO",
   "HARPER" ++ apoS ++ "S INDEX", "HARPER" ++ rsqS ++ "S INDEX", "HARPERS INDEX",
   "FINDINGS"]

/-- `valid_page`. -/
def validPage (n : Nat) : Bool := (1 ≤ n) && (n ≤ 999)

/-- `is_known_section_name(name, brand)`. -/
def isKnownSectionName (name brand : String) : Bool :=
  let U := pyUpper (pyStrip name)
  let startsAny := fun (keys : List String) => keys.any (fun k => k.data.isPrefixOf U.data)
  if brand = "newyorker" then startsAny NY_SECTIONS
  else if brand = "atlantic" then startsAny ATL_SECTIONS
  else if brand = "harpers" then
    if strContains U ("HARPER") && strContains U ("INDEX") then false
    else if (⟨U.data.filter (fun c => c ≠ ' ')⟩ : String) = "FINDINGS" then false
    else startsAny HARPERS_SECTIONS
  else startsAny (NY_SECTIONS ++ ATL_SECTIONS ++ HARPERS_SECTIONS)

/-! ### The source's regex patterns as `RE` values -/

/-- The character class `[’']`. -/
def anyApoCh (c : Char) : Bool := c = '’' || c = Char.ofNat 39

/-- `FOOTER_RE = (the new yorker|the atlantic|harper'?s magazine).*,\s+\w+\s+\d{1,2},\s+\d{4}`
with `re.I`; case-insensitivity is modelled by running it on the lowercased
line. -/
def FOOTER_RE : RE :=
  rSeq [RE.grp 1 (rAlts [rStr ("the new yorker"), rStr ("the atlantic"),
          rSeq [rStr ("harper"), rOpt (rChr (Char.ofNat 39)), rStr ("s magazine")]]),
        rDotStar, rChr ',', rWs1, RE.repA isWordCh 1 none true, rWs1,
        rDigits 1 2, rChr ',', rWs1, rDigits 4 4]

/-- `DATE_RE = \b(?:JAN|FEB|MAR|APR|MAY|JUN|JUL|AUG|SEP|OCT|NOV|DEC)\b\.?,?\s+\d{1,2},\s+\d{4}`
with `re.I`; run on the uppercased line. -/
def DATE_RE : RE :=
  rSeq [RE.wordB,
        rAlts [rStr ("JAN"), rStr ("FEB"), rStr ("MAR"), rStr ("APR"), rStr ("MAY"),
               rStr ("JUN"), rStr ("JUL"), rStr ("AUG"), rStr ("SEP"), rStr ("OCT"),
               rStr ("NOV"), rStr ("DEC")],
        RE.wordB, rOpt (rChr '.'), rOpt (rChr ','), rWs1, rDigits 1 2, rChr ',',
        rWs1, rDigits 4 4]

/-- The issue-title pattern `(The New Yorker|The Atlantic|Harper'?s Magazine).+\d{4}`
with `re.I`; run on the lowercased line. -/
def ISSUE_RE : RE :=
  rSeq [RE.grp 1 (rAlts [rStr ("the new yorker"), rStr ("the atlantic"),
          rSeq [rStr ("harper"), rOpt (rChr (Char.ofNat 39)), rStr ("s magazine")]]),
        RE.repA dotCh 1 none true, rDigits 4 4]

/-- `_HARPERS_END_RE` with `re.I`; run on the uppercased text. -/
def HARPERS_END_RE : RE :=
  rAlts [rSeq [rStr ("HARPER"), rOpt (RE.atom anyApoCh), rChr 'S', rWs1, rStr ("INDEX")],
         rStr ("FINDINGS"),
         rSeq ((("HARPER".data.map rChr).intersperse rWs0) ++
               [rWs0, RE.atom anyApoCh, rWs0] ++
               (("SINDEX".data.map rChr).intersperse rWs0)),
         rSeq (("FINDINGS".data.map rChr).intersperse rWs0)]

/-- The leader class `LEADERS`: dot, ellipsis (U+2026), middle dot (U+00B7),
bullet (U+2022), en dash (U+2013), em dash (U+2014), figure space (U+2007),
thin space (U+2009), hyphen. -/
def leadersCh (c : Char) : Bool :=
  c = '.' || c = '…' || c = '·' || c = '•' || c = '–' ||
  c = '—' || c.val = 0x2007 || c.val = 0x2009 || c = '-'

/-- The author shape `[A-Z][\w.'’\-]+(?:\s+[A-Z][\w.'’\-]+)*`. -/
def authWordCh (c : Char) : Bool :=
  isWordCh c || c = '.' || c = Char.ofNat 39 || c = '’' || c = '-'

def reAUTHOR : RE :=
  rSeq [RE.atom isUpperCh, RE.repA authWordCh 1 none true,
        RE.starSeq (rSeq [rWs1, RE.atom isUpperCh, RE.repA authWordCh 1 none true])]

/-- `(?:-\s*|—\s*)`. -/
def rDashAuthorSep : RE :=
  RE.alt (RE.seq (rChr '-') rWs0) (RE.seq (rChr '—') rWs0)

/-- `AUTHOR_PAGE_TITLE = ^(?P<author>…)\s{2,}(?P<page>\d{1,3})\s{2,}(?P<title>.+?)\s*$`
(groups: 1 author, 2 page, 3 title). -/
def AUTHOR_PAGE_TITLE : RE :=
  rSeq [RE.grp 1 reAUTHOR, rWs2, RE.grp 2 (rDigits 1 3), rWs2,
        RE.grp 3 rDotLazy1, rWs0, RE.endA]

/-- `PAGE_TITLE = ^\s*(?P<page>\d{1,3})\s+(?P<title>.+?)\s*$` (groups: 1 page,
2 title).  The inline pattern of `try_section` has the identical text. -/
def PAGE_TITLE : RE :=
  rSeq [rWs0, RE.grp 1 (rDigits 1 3), rWs1, RE.grp 2 rDotLazy1, rWs0, RE.endA]

/-- `TRAILING_DOTS = ^(.+?)\s\.{2,}\s(\d{1,3})\s*$`. -/
def TRAILING_DOTS : RE :=
  rSeq [RE.grp 1 rDotLazy1, RE.atom isSpaceCh, RE.repA (fun c => c = '.') 2 none true,
        RE.atom isSpaceCh, RE.grp 2 (rDigits 1 3), rWs0, RE.endA]

/-- `TRAILING_NUM = ^(.+?)\s(\d{1,3})\s*$`. -/
def TRAILING_NUM : RE :=
  rSeq [RE.grp 1 rDotLazy1, RE.atom isSpaceCh, RE.grp 2 (rDigits 1 3), rWs0, RE.endA]

/-- The class `[A-Z '&/.\-]`. -/
def sectionCh (c : Char) : Bool :=
  isUpperCh c || c = ' ' || c = Char.ofNat 39 || c = '&' || c = '/' || c = '.' || c = '-'

/-- `SECTION_THEN_PAGE = ^\s*(?P<section>[A-Z][A-Z '&/.\-]+?)\s{2,}(?P<page>\d{1,3})\s*$`
(groups: 1 section, 2 page). -/
def SECTION_THEN_PAGE : RE :=
  rSeq [rWs0, RE.grp 1 (RE.seq (RE.atom isUpperCh) (RE.repA sectionCh 1 none false)),
        rWs2, RE.grp 2 (rDigits 1 3), rWs0, RE.endA]

/-- `TITLE_DOTS_PAGE_AUTHOR = ^\s*(?P<title>.+?)\s{LEADERS}\s(?P<page>\d{1,3})\s*(?:-\s*|—\s*)(?P<author>.+?)\s*$`
(groups: 1 title, 2 page, 3 author). -/
def TITLE_DOTS_PAGE_AUTHOR : RE :=
  rSeq [rWs0, RE.grp 1 rDotLazy1, RE.atom isSpaceCh, RE.repA leadersCh 1 none true,
        RE.atom isSpaceCh, RE.grp 2 (rDigits 1 3), rWs0, rDashAuthorSep,
        RE.grp 3 rDotLazy1, rWs0, RE.endA]

/-- `TITLE_AUTHOR_DOTS_PAGE = ^\s*(?P<title>.+?)\s*(?:-\s*|—\s*)(?P<author>.+?)\s{LEADERS}\s(?P<page>\d{1,3})\s*$`
(groups: 1 title, 2 author, 3 page). -/
def TITLE_AUTHOR_DOTS_PAGE : RE :=
  rSeq [rWs0, RE.grp 1 rDotLazy1, rWs0, rDashAuthorSep, RE.grp 2 rDotLazy1,
        RE.atom isSpaceCh, RE.repA leadersCh 1 none true, RE.atom isSpaceCh,
        RE.grp 3 (rDigits 1 3), rWs0, RE.endA]

/-- `AUTHOR_TITLE_PAGE = ^\s*(?P<author>…)\s{2,}(?P<title>.+?)\s{2,}(?P<page>\d{1,3})\s*$`
(groups: 1 author, 2 title, 3 page). -/
def AUTHOR_TITLE_PAGE : RE :=
  rSeq [rWs0, RE.grp 1 reAUTHOR, rWs2, RE.grp 2 rDotLazy1, rWs2,
        RE.grp 3 (rDigits 1 3), rWs0, RE.endA]

/-- `TITLE_DOTS_PAGE = ^\s*(?P<title>.+?)\s{LEADERS}\s(?P<page>\d{1,3})\s*$`
(groups: 1 title, 2 page). -/
def TITLE_DOTS_PAGE : RE :=
  rSeq [rWs0, RE.grp 1 rDotLazy1, RE.atom isSpaceCh, RE.repA leadersCh 1 none true,
        RE.atom isSpaceCh, RE.grp 2 (rDigits 1 3), rWs0, RE.endA]

/-- `TITLE_SPACES_PAGE = ^\s*(?P<title>.+?)\s{2,}(?P<page>\d{1,3})\s*$`
(groups: 1 title, 2 page). -/
def TITLE_SPACES_PAGE : RE :=
  rSeq [rWs0, RE.grp 1 rDotLazy1, rWs2, RE.grp 2 (rDigits 1 3), rWs0, RE.endA]

/-- The class `[^0-9"“”]` of the quoted-poem pattern. -/
def poemAuthCh (c : Char) : Bool :=
  !(isDigitCh c) && c ≠ Char.ofNat 34 && c ≠ '“' && c ≠ '”'

/-- The quoted-poem `findall` pattern
`(\"[^\"]+\")\s*(?:-\s*|—\s*)?([^0-9\"“”]+)?\s*(?:\(p\.\s*)?(\d{1,3})\)?`
(groups: 1 quoted title, 2 attribution, 3 page). -/
def POEM_QUOTED : RE :=
  rSeq [RE.grp 1 (rSeq [rChr (Char.ofNat 34), RE.repA (fun c => c ≠ Char.ofNat 34) 1 none true,
          rChr (Char.ofNat 34)]),
        rWs0, rOpt rDashAuthorSep, rOpt (RE.grp 2 (RE.repA poemAuthCh 1 none true)),
        rWs0, rOpt (rSeq [rChr '(', rChr 'p', rChr '.', rWs0]),
        RE.grp 3 (rDigits 1 3), rOpt (rChr ')')]

/-- `re.search(r"\d{1,3}\s*$", …)` of the continuation heuristic. -/
def NEXT_ENDS_NUM : RE := rSeq [rDigits 1 3, rWs0, RE.endA]

/-! ### Matcher wrappers returning the captured groups -/

/-- `TITLE_DOTS_PAGE_AUTHOR.match(line)` as `(title, page, author)`. -/
def mTitleDotsPageAuthor (line : String) : Option (String × String × String) :=
  (reMatch TITLE_DOTS_PAGE_AUTHOR line).map
    (fun caps => (capStrD line caps 1, capStrD line caps 2, capStrD line caps 3))

/-- `TITLE_AUTHOR_DOTS_PAGE.match(line)` as `(title, author, page)`. -/
def mTitleAuthorDotsPage (line : String) : Option (String × String × String) :=
  (reMatch TITLE_AUTHOR_DOTS_PAGE line).map
    (fun caps => (capStrD line caps 1, capStrD line caps 2, capStrD line caps 3))

/-- `AUTHOR_TITLE_PAGE.match(line)` as `(author, title, page)`. -/
def mAuthorTitlePage (line : String) : Option (String × String × String) :=
  (reMatch AUTHOR_TITLE_PAGE line).map
    (fun caps => (capStrD line caps 1, capStrD line caps 2, capStrD line caps 3))

/-- `TITLE_DOTS_PAGE.match(line)` as `(title, page)`. -/
def mTitleDotsPage (line : String) : Option (String × String) :=
  (reMatch TITLE_DOTS_PAGE line).map (fun caps => (capStrD line caps 1, capStrD line caps 2))

/-- `TITLE_SPACES_PAGE.match(line)` as `(title, page)`. -/
def mTitleSpacesPage (line : String) : Option (String × String) :=
  (reMatch TITLE_SPACES_PAGE line).map (fun caps => (capStrD line caps 1, capStrD line caps 2))

/-- `AUTHOR_PAGE_TITLE.match(line)` as `(author, page, title)`. -/
def mAuthorPageTitle (line : String) : Option (String × String × String) :=
  (reMatch AUTHOR_PAGE_TITLE line).map
    (fun caps => (capStrD line caps 1, capStrD line caps 2, capStrD line caps 3))

/-- `PAGE_TITLE.match(line)` as `(page, title)`. -/
def mPageTitle (line : String) : Option (String × String) :=
  (reMatch PAGE_TITLE line).map (fun caps => (capStrD line caps 1, capStrD line caps 2))

/-- `TRAILING_DOTS.match(line) or TRAILING_NUM.match(line)` as `(title, page)`
(positional groups 1 and 2, identical in both patterns). -/
def mTrailing (line : String) : Option (String × String) :=
  ((reMatch TRAILING_DOTS line).orElse (fun _ => reMatch TRAILING_NUM line)).map
    (fun caps => (capStrD line caps 1, capStrD line caps 2))

/-- `POEM_QUOTED.findall(line)` as `(title, attribution, page)` tuples. -/
def mPoemFindall (line : String) : List (String × String × String) :=
  (reFindAll POEM_QUOTED line).map
    (fun caps => (capStrD line caps 1, capStrD line caps 2, capStrD line caps 3))

/-- `SECTION_THEN_PAGE.match(line)` as `(section, page)`. -/
def mSectionThenPage (line : String) : Option (String × String) :=
  (reMatch SECTION_THEN_PAGE line).map (fun caps => (capStrD line caps 1, capStrD line caps 2))

/-- `re.search(r"[a-zA-Z]", s)`. -/
def alphaSearch (s : String) : Bool := reTest (RE.atom isAsciiAlphaCh) s

/-- `re.search(r"\d{1,3}", s)`. -/
def anyDigitsSearch (s : String) : Bool := reTest (rDigits 1 3) s

/-! ### Section-state parser (`parse`) -/

/-- `section_pages`: a Python dict, i.e. an insertion-ordered association
list from section name to optional page. -/
abbrev SectionPages := List (String × Option Nat)

def spLookup : SectionPages → String → Option (Option Nat)
  | [], _ => none
  | e :: rest, s => if e.1 = s then some e.2 else spLookup rest s

/-- Python dict assignment: update in place if the key is present, else
append (dict keys are unique, so the first hit is the only one). -/
def spSet : SectionPages → String → Option Nat → SectionPages
  | [], s, v => [(s, v)]
  | e :: rest, s, v => if e.1 = s then (e.1, v) :: rest else e :: spSet rest s v

/-- `if section not in section_pages or section_pages[section] is None:
section_pages[section] = pg`. -/
def recordSection (sp : SectionPages) (s : String) (pg : Option Nat) : SectionPages :=
  match spLookup sp s with
  | none => spSet sp s pg
  | some none => spSet sp s pg
  | some (some _) => sp

/-- `try_section(line)`: the three sub-patterns in order, each falling
through when its name or page check fails. -/
def trySection (brand line : String) : Option (String × Option Nat) :=
  let U := pyUpper (pyStrip line)
  (match mPageTitle U with
   | some pr =>
     if isKnownSectionName pr.2 brand && validPage (natOfDigits pr.1) then
       some (pr.2, some (natOfDigits pr.1))
     else none
   | none => none).orElse (fun _ =>
  (match mSectionThenPage U with
   | some pr =>
     if isKnownSectionName pr.1 brand && validPage (natOfDigits pr.2) then
       some (pr.1, some (natOfDigits pr.2))
     else none
   | none => none).orElse (fun _ =>
  if isKnownSectionName U brand then some (U, none) else none))

/-- `any(noise in U for noise in NOISE_UPPER)`. -/
def isNoiseLine (U : String) : Bool := NOISE_UPPER.any (fun n => strContains U n)

/-- The mutable scan state of `parse`'s loop. -/
structure ParseState where
  sec : Option String
  sectionPages : SectionPages
  items : List TocItem
  deriving DecidableEq, Repr

def pushItem (st : ParseState) (it : TocItem) : ParseState :=
  { st with items := st.items ++ [it] }

/-- The look-ahead test of the hanging-title continuation (the inner `if` of
the `AUTHOR_PAGE_TITLE` branch): the stripped following line does not end in
a 1–3-digit number, is not a section header, and is 10–200 characters long. -/
def contLineOK (brand : String) (nxt : String) : Bool :=
  !reTest NEXT_ENDS_NUM nxt && (trySection brand nxt).isNone &&
  decide (10 ≤ nxt.length) && decide (nxt.length ≤ 200)

/-- One iteration of `parse`'s while-loop on line `raw` with lookahead `la`
(`lines[i+1]` if it exists).  Returns the new state and whether the
lookahead line was also consumed (the hanging-title continuation). -/
def lineStep (brand : String) (st : ParseState) (raw : String) (la : Option String) :
    ParseState × Bool :=
  let line := pyStrip raw
  let U := pyUpper line
  if reTest DATE_RE U then (st, false)
  else if isNoiseLine U then (st, false)
  else match trySection brand line with
  | some sp =>
    ({ st with sec := some sp.1, sectionPages := recordSection st.sectionPages sp.1 sp.2 }, false)
  | none =>
    match st.sec with
    | none => (st, false)
    | some s =>
      if s = "CONTRIBUTORS" || s = "THE MAIL" then (st, false)
      else match mTitleDotsPageAuthor line with
      | some m =>
        let page := natOfDigits m.2.1
        (if validPage page then
          pushItem st ⟨some page, pyStrip m.1, some s, some (pyStrip m.2.2)⟩
         else st, false)
      | none => match mTitleAuthorDotsPage line with
      | some m =>
        let page := natOfDigits m.2.2
        (if validPage page then
          pushItem st ⟨some page, pyStrip m.1, some s, some (pyStrip m.2.1)⟩
         else st, false)
      | none => match mAuthorTitlePage line with
      | some m =>
        let page := natOfDigits m.2.2
        let title := pyStrip m.2.1
        (if validPage page && alphaSearch title then
          pushItem st ⟨some page, title, some s, some (pyStrip m.1)⟩
         else st, false)
      | none => match mTitleDotsPage line with
      | some m =>
        let page := natOfDigits m.2
        let title := pyStrip m.1
        (if !isKnownSectionName (pyUpper title) brand && validPage page then
          pushItem st ⟨some page, title, some s, none⟩
         else st, false)
      | none => match mTitleSpacesPage line with
      | some m =>
        let page := natOfDigits m.2
        let title := pyStrip m.1
        (if !isKnownSectionName (pyUpper title) brand && validPage page then
          pushItem st ⟨some page, title, some s, none⟩
         else st, false)
      | none => match mAuthorPageTitle line with
      | some m =>
        let page := natOfDigits m.2.1
        let title := pyStrip m.2.2
        let author := pyStrip m.1
        if validPage page && alphaSearch title then
          match la with
          | some nx =>
            if s ≠ "POEMS" then
              let nxt := pyStrip nx
              if contLineOK brand nxt then
                (pushItem st ⟨some page, title ++ " — " ++ nxt, some s, some author⟩, true)
              else (pushItem st ⟨some page, title, some s, some author⟩, false)
            else (pushItem st ⟨some page, title, some s, some author⟩, false)
          | none => (pushItem st ⟨some page, title, some s, some author⟩, false)
        else (st, false)
      | none => match mPageTitle line with
      | some m =>
        let page := natOfDigits m.1
        let title := pyStrip m.2
        (if validPage page && alphaSearch title then
          pushItem st ⟨some page, title, some s, none⟩
         else st, false)
      | none => match mTrailing line with
      | some m =>
        let page := natOfDigits m.2
        let title := pyStrip m.1
        (if !isKnownSectionName (pyUpper title) brand && validPage page && alphaSearch title then
          pushItem st ⟨some page, title, some s, none⟩
         else st, false)
      | none =>
        if s = "POEMS" && strContains line dqS && anyDigitsSearch line then
          ({ st with items := st.items ++ (mPoemFindall line).filterMap (fun m =>
              let page := natOfDigits m.2.2
              if validPage page then
                some ⟨some page, pyStrip m.1, some s,
                      (let a := pyStrip m.2.1; if a = "" then none else some a)⟩
              else none) }, false)
        else (st, false)

/-- `parse`'s while-loop.  The fuel starts at the number of lines; every
step consumes at least one line, so it is never exhausted. -/
def parseLinesF (brand : String) : Nat → ParseState → List String → ParseState
  | _, st, [] => st
  | 0, st, _ :: _ => st
  | Nat.succ f, st, raw :: rest =>
    match lineStep brand st raw rest.head? with
    | (st2, true) => parseLinesF brand f st2 rest.tail
    | (st2, false) => parseLinesF brand f st2 rest

def parseLines (brand : String) (lines : List String) : ParseState :=
  parseLinesF brand lines.length { sec := none, sectionPages := [], items := [] } lines

/-! ### Deduplication and canonical ordering -/

abbrev DedupKey := Option Nat × String × String

/-- `key = (it.page, it.title.lower(), (it.section or ""))`. -/
def dedupKey (it : TocItem) : DedupKey := (it.page, pyLower it.title, it.sec.getD (""))

def dedupGo (seen : List DedupKey) : List TocItem → List TocItem
  | [] => []
  | it :: rest =>
    if dedupKey it ∈ seen then dedupGo seen rest
    else it :: dedupGo (dedupKey it :: seen) rest

/-- The `seen`-set first-occurrence filter of `parse`'s final block. -/
def dedup (l : List TocItem) : List TocItem := dedupGo [] l

/-- `(x.page if x.page is not None else 999, (x.section or ""), x.title.lower())`. -/
def sortKey (it : TocItem) : Nat × String × String :=
  (it.page.getD 999, it.sec.getD (""), pyLower it.title)

/-- Lexicographic order on `(Nat, String, String)` keys: Python tuple
comparison, strings compared by code point (lists of characters under the
lexicographic list order). -/
def tripLE (x y : Nat × String × String) : Prop :=
  x.1 < y.1 ∨ (x.1 = y.1 ∧
    (x.2.1.data < y.2.1.data ∨ (x.2.1.data = y.2.1.data ∧ x.2.2.data ≤ y.2.2.data)))

instance : DecidableRel tripLE := fun x y => by unfold tripLE; infer_instance

/-- The sort order of `out.sort(key=...)`. -/
def keyRel (a b : TocItem) : Prop := tripLE (sortKey a) (sortKey b)

instance : DecidableRel keyRel := fun a b => by unfold keyRel; infer_instance

/-- `out.sort(key=…)` after the `seen` filter: Python's stable sort,
modelled by the (stable) insertion sort. -/
def dedupSort (l : List TocItem) : List TocItem := (dedup l).insertionSort keyRel

instance : IsTrans TocItem keyRel :=
  ⟨fun a b c hab hbc => by
    unfold keyRel tripLE at *
    rcases hab with h1 | ⟨e1, h1⟩ <;> rcases hbc with h2 | ⟨e2, h2⟩
    · exact Or.inl (lt_trans h1 h2)
    · exact Or.inl (e2 ▸ h1)
    · exact Or.inl (e1 ▸ h2)
    · refine Or.inr ⟨e1.trans e2, ?_⟩
      rcases h1 with g1 | ⟨f1, g1⟩ <;> rcases h2 with g2 | ⟨f2, g2⟩
      · exact Or.inl (lt_trans g1 g2)
      · exact Or.inl (f2 ▸ g1)
      · exact Or.inl (f1 ▸ g2)
      · exact Or.inr ⟨f1.trans f2, le_trans g1 g2⟩⟩

instance : IsTotal TocItem keyRel :=
  ⟨fun a b => by
    unfold keyRel tripLE
    rcases lt_trichotomy (sortKey a).1 (sortKey b).1 with h | h | h
    · exact Or.inl (Or.inl h)
    · rcases lt_trichotomy (sortKey a).2.1.data (sortKey b).2.1.data with h2 | h2 | h2
      · exact Or.inl (Or.inr ⟨h, Or.inl h2⟩)
      · rcases le_total (sortKey a).2.2.data (sortKey b).2.2.data with h3 | h3
        · exact Or.inl (Or.inr ⟨h, Or.inr ⟨h2, h3⟩⟩)
        · exact Or.inr (Or.inr ⟨h.symm, Or.inr ⟨h2.symm, h3⟩⟩)
      · exact Or.inr (Or.inr ⟨h.symm, Or.inl h2⟩)
    · exact Or.inr (Or.inl h)⟩

/-! ### Region slicing and `parse` -/

/-- `str.rstrip()`. -/
def pyRstrip (s : String) : String := ⟨(s.data.reverse.dropWhile isSpaceCh).reverse⟩

/-- `slice_region(text, brand)`. -/
def slice_region (text : String) (brand : String) : String :=
  let low := pyLower text
  let cands := ([strFind low ("table of contents"), strFind low ("contents")]).filterMap id
  let start := (cands.min?).getD 0
  let text2 : String := ⟨text.data.drop start⟩
  let outLines := ((pySplitlines text2).takeWhile
      (fun ln => !reTest FOOTER_RE (pyLower ln))).map pyRstrip
  let region := String.intercalate ("\n") outLines
  if brand = "harpers" then
    match (reSearch HARPERS_END_RE (pyUpper region)).bind (fun caps => capSpan caps 0) with
    | some ab => ⟨region.data.take ab.1⟩
    | none => region
  else region

/-- The issue-title scan over the first 120 lines. -/
def findIssueTitle (text : String) : Option String :=
  (((pySplitlines text).take 120).find? (fun L => reTest ISSUE_RE (pyLower L))).map pyStrip

/-- The result triple of `parse`. -/
structure Parsed where
  issue : Option String
  sectionPages : SectionPages
  items : List TocItem
  deriving DecidableEq, Repr

/-- The non-blank line selection of `parse`: no region slicing for
Harper's, `slice_region` for the other brands. -/
def parseLinesOf (text brand : String) : List String :=
  if brand = "harpers" then (pySplitlines text).filter (fun ln => pyStrip ln ≠ "")
  else (pySplitlines (slice_region text brand)).filter (fun ln => pyStrip ln ≠ "")

/-- `parse(text, brand)`. -/
def parse (text : String) (brand : String) : Parsed :=
  let st := parseLines brand (parseLinesOf text brand)
  { issue := findIssueTitle text, sectionPages := st.sectionPages,
    items := dedupSort st.items }

/-! ### Cleanup, sparsity, brand detection -/

def isLowerAZ (c : Char) : Bool := ('a' ≤ c) && (c ≤ 'z')

/-- First pass of `dehyphenate`: `re.sub(r"-\n(?=[a-z])", "", text)`. -/
def dehyph1 : List Char → List Char
  | '-' :: '\n' :: c :: rest =>
    if isLowerAZ c then dehyph1 (c :: rest) else '-' :: dehyph1 ('\n' :: c :: rest)
  | c :: rest => c :: dehyph1 rest
  | [] => []

/-- Second pass: `re.sub(r"(?<![.:;])\n(?=[a-z])", " ", text)`; `prev` is the
character before the scan position in the original string (lookbehind
inspects the original text). -/
def dehyph2 (prev : Option Char) : List Char → List Char
  | '\n' :: c :: rest =>
    if isLowerAZ c && !(prev = some '.' || prev = some ':' || prev = some ';') then
      ' ' :: dehyph2 (some '\n') (c :: rest)
    else '\n' :: dehyph2 (some '\n') (c :: rest)
  | c :: rest => c :: dehyph2 (some c) rest
  | [] => []

def dehyphenate (text : String) : String := ⟨dehyph2 none (dehyph1 text.data)⟩

/-- `normalize(text)`: em dash to hyphen, curly quotes to ASCII, no-break
space to space. -/
def normalize (text : String) : String :=
  ⟨text.data.map (fun c =>
    if c = '—' then '-'
    else if c = '’' then Char.ofNat 39
    else if c = '“' then Char.ofNat 34
    else if c = '”' then Char.ofNat 34
    else if c.val = 0xA0 then ' '
    else c)⟩

/-- `looks_sparse`: fewer than 300 characters after deleting `[\W_]+`. -/
def looks_sparse (text : String) : Bool :=
  (text.data.filter (fun c => isWordCh c && c ≠ '_')).length < 300

/-- `detect_brand_from_text(text, pdf_name)`. -/
def detect_brand_from_text (text : String) (pdfName : String) : String :=
  let n := pyLower pdfName
  let t := pyLower text
  if strContains n ("new yorker") || strContains n ("the_new_yorker") then "newyorker"
  else if strContains n ("atlantic") then "atlantic"
  else if strContains n ("harper") then "harpers"
  else if strContains t ("harper" ++ apoS ++ "s magazine") || strContains t ("harpers magazine") ||
          strContains t ("harper" ++ rsqS ++ "s magazine") then "harpers"
  else if strContains t ("the new yorker") then "newyorker"
  else if strContains t ("the atlantic") then "atlantic"
  else "auto"

/-! ### Plain-text formatter -/

/-- `fitems`: drop mail/contributors items unless included. -/
def filterFlags (items : List TocItem) (includeMail includeContrib : Bool) : List TocItem :=
  items.filter (fun it =>
    !(it.sec == some ("THE MAIL") && !includeMail) &&
    !(it.sec == some ("CONTRIBUTORS") && !includeContrib))

/-- `by_sec.setdefault(it.section, []).append(it)` over the item list. -/
def bySecAppend (m : List (Option String × List TocItem)) (k : Option String) (it : TocItem) :
    List (Option String × List TocItem) :=
  match m.find? (fun e => e.1 == k) with
  | some _ => m.map (fun e => if e.1 == k then (e.1, e.2 ++ [it]) else e)
  | none => m ++ [(k, [it])]

def buildBySec (items : List TocItem) : List (Option String × List TocItem) :=
  items.foldl (fun m it => bySecAppend m it.sec it) []

/-- `order`: non-empty section names in first-occurrence order. -/
def buildOrder (items : List TocItem) : List String :=
  items.foldl (fun ord it =>
    match it.sec with
    | some s => if s = "" then ord else if s ∈ ord then ord else ord ++ [s]
    | none => ord) []

/-- `f"{sec} (p. {pg})" if pg is not None else sec`. -/
def sectionHeading (sec : String) (pg : Option Nat) : String :=
  match pg with
  | some p => sec ++ " (p. " ++ toString p ++ ")"
  | none => sec

/-- Truthiness of `by_sec.get(sec)`: present with a nonempty item list. -/
def bySecTruthy (bySec : List (Option String × List TocItem)) (sec : String) : Bool :=
  (((bySec.find? (fun q => q.1 == some sec)).map (fun q => q.2)).getD []) ≠ []

/-- The summary block of `format_plain` (the loop over
`section_pages.items()`). -/
def summaryLines (sp : SectionPages) (bySec : List (Option String × List TocItem))
    (suppressEmpty includeMail includeContrib : Bool) : List String :=
  sp.filterMap (fun e =>
    if (e.1 = "THE MAIL" || e.1 = "CONTRIBUTORS") &&
       !(if e.1 = "THE MAIL" then includeMail else includeContrib) then none
    else if suppressEmpty && bySecTruthy bySec e.1 then none
    else some (sectionHeading e.1 e.2))

/-- The per-section item sort key `(page or 999, title.lower())`. -/
def pairRel (a b : TocItem) : Prop :=
  a.page.getD 999 < b.page.getD 999 ∨
    (a.page.getD 999 = b.page.getD 999 ∧ (pyLower a.title).data ≤ (pyLower b.title).data)

instance : DecidableRel pairRel := fun a b => by unfold pairRel; infer_instance

/-- `f"• {it.title} {p}{tail}".rstrip()`. -/
def itemLine (it : TocItem) : String :=
  let p := match it.page with
    | some pg => "(p. " ++ toString pg ++ ")"
    | none => ""
  let tl := match it.author with
    | some a => if a = "" then "" else " — " ++ a
    | none => ""
  pyRstrip ("• " ++ it.title ++ " " ++ p ++ tl)

/-- `while lines and not lines[-1].strip(): lines.pop()`. -/
def trimTrailingBlank (l : List String) : List String :=
  (l.reverse.dropWhile (fun s => pyStrip s = "")).reverse

/-- `format_plain`. -/
def format_plain (issue : Option String) (sp : SectionPages) (items0 : List TocItem)
    (suppressEmpty includeMail includeContrib : Bool) : String :=
  let items := filterFlags items0 includeMail includeContrib
  let order := buildOrder items
  let bySec := buildBySec items
  let l1 : List String := match issue with
    | some t => if t ≠ "" then [t, ""] else []
    | none => []
  let l2 := summaryLines sp bySec suppressEmpty includeMail includeContrib
  let l3 : List String := if sp ≠ [] then [""] else []
  let l4 := order.foldl (fun acc sec =>
    if (sec = "THE MAIL" || sec = "CONTRIBUTORS") &&
       !(if sec = "THE MAIL" then includeMail else includeContrib) then acc
    else
      let pg := (((sp.find? (fun e => e.1 == sec)).map (fun e => e.2)).getD none)
      let its := (((bySec.find? (fun q => q.1 == some sec)).map (fun q => q.2)).getD [])
      acc ++ [sectionHeading sec pg] ++ (its.insertionSort pairRel).map itemLine ++ [""]) []
  String.intercalate ("\n") (trimTrailingBlank (l1 ++ l2 ++ l3 ++ l4)) ++ "\n"

/-! ### The multi-pass orchestrator (`main` after argument parsing)

External tools are oracles; `Except.error ()` is a raised exception. -/

structure Env where
  pdfName : String
  /-- `pdftotext_extract(pdf, pages, mode)` over the page window. -/
  extractText : String → Except Unit String
  /-- `pdftotext_extract_page(pdf, page, mode)`. -/
  extractPage : Nat → String → Except Unit String
  pdftoppmAvail : Bool
  tesseractAvail : Bool
  /-- The `pdftoppm` run: image list on success, else a raised error. -/
  runPdftoppm : Except Unit (List Nat)
  /-- One `tesseract` run per image: `error` is a `CalledProcessError`
  (caught), `ok none` a missing output file, `ok (some s)` recognized text. -/
  runTesseract : Nat → Except Unit (Option String)

/-- `ocr_first_pages`: empty text when the tools are missing; tesseract
failures skip the page; a `pdftoppm` failure is not caught and escapes. -/
def ocr_first_pages (env : Env) : Except Unit String :=
  if !env.pdftoppmAvail || !env.tesseractAvail then Except.ok ("")
  else
    match env.runPdftoppm with
    | Except.error e => Except.error e
    | Except.ok imgs =>
      Except.ok (String.intercalate ("\n") (imgs.filterMap (fun i =>
        match env.runTesseract i with
        | Except.error _ => none
        | Except.ok o => o)))

def harpersEndTest (t : String) : Bool := reTest HARPERS_END_RE (pyUpper t)

/-- `len(re.findall(r"\b\d{1,3}\b", t))`. -/
def countSmallNumTokens (t : String) : Nat :=
  (reFindAll (rSeq [RE.wordB, rDigits 1 3, RE.wordB]) t).length

/-- `find_harpers_toc_page`: probe pages 1–7, fall back to 3. -/
def find_harpers_toc_page (env : Env) : Nat :=
  ((List.range 7).findSome? (fun d =>
    let p := d + 1
    match env.extractPage p ("layout") with
    | Except.error _ => none
    | Except.ok t =>
      let low := pyLower t
      if (strContains low ("contents") || strContains low ("table of contents")) &&
         !harpersEndTest t && countSmallNumTokens t ≥ 6 then some p
      else none)).getD 3

/-- The raw-mode retry of `main` (the `brand != "harpers" and len(items) < 4`
block): a successful strictly richer raw parse replaces the whole result;
any failure is caught and keeps the current result. -/
def rawRetry (brand : String) (cur : Parsed) (rawResult : Except Unit Parsed) : Parsed :=
  if brand ≠ "harpers" ∧ cur.items.length < 4 then
    match rawResult with
    | Except.ok r2 => if r2.items.length > cur.items.length then r2 else cur
    | Except.error _ => cur
  else cur

/-- `main` from the first acquisition to the final `(issue, sections, items)`
triple.  `Except.error ()` is an exception escaping `main`. -/
def mainModel (env : Env) (brandArg : String) : Except Unit Parsed :=
  let text0 := match env.extractText ("layout") with
    | Except.ok t => t
    | Except.error _ => ""
  let afterOcr : Except Unit String :=
    if looks_sparse text0 then
      match ocr_first_pages env with
      | Except.error e => Except.error e
      | Except.ok o => Except.ok (if o ≠ "" then o else text0)
    else Except.ok text0
  match afterOcr with
  | Except.error e => Except.error e
  | Except.ok t1 =>
    let text := normalize (dehyphenate t1)
    let brand := if brandArg ≠ "auto" then brandArg else detect_brand_from_text text env.pdfName
    if brand = "harpers" then
      let tp := find_harpers_toc_page env
      let acq := [env.extractPage tp ("layout"), env.extractPage (tp + 1) ("layout"),
                  env.extractPage tp ("raw"), env.extractPage (tp + 1) ("raw")]
      let parts := acq.filterMap (fun r =>
        match r with
        | Except.ok s => some (normalize (dehyphenate s))
        | Except.error _ => none)
      let text2 := String.intercalate ("\n") (parts.filter (fun s => s ≠ ""))
      Except.ok (parse text2 ("harpers"))
    else
      let r1 := parse text brand
      Except.ok (rawRetry brand r1 ((env.extractText ("raw")).map
        (fun t2 => parse (normalize (dehyphenate t2)) brand)))

/-! ## Theorems -/



theorem mem_dedupGo {seen : List DedupKey} {l : List TocItem} {b : TocItem}
    (h : b ∈ dedupGo seen l) : b ∈ l ∧ dedupKey b ∉ seen := by
  induction l generalizing seen with
  | nil => simp [dedupGo] at h
  | cons a rest ih =>
    simp only [dedupGo] at h
    split at h
    · rcases ih h with ⟨h1, h2⟩
      exact ⟨List.mem_cons_of_mem _ h1, h2⟩
    · next hna =>
      rcases List.mem_cons.mp h with rfl | hm
      · exact ⟨List.mem_cons_self _ _, hna⟩
      · rcases ih hm with ⟨h1, h2⟩
        exact ⟨List.mem_cons_of_mem _ h1, fun hs => h2 (List.mem_cons_of_mem _ hs)⟩

theorem dedupGo_keys_nodup (seen : List DedupKey) (l : List TocItem) :
    ((dedupGo seen l).map dedupKey).Nodup := by
  induction l generalizing seen with
  | nil => simp [dedupGo]
  | cons a rest ih =>
    simp only [dedupGo]
    split
    · exact ih seen
    · simp only [List.map_cons, List.nodup_cons]
      refine ⟨fun hmem => ?_, ih _⟩
      rcases List.mem_map.mp hmem with ⟨b, hb, he⟩
      exact (mem_dedupGo hb).2 (he ▸ List.mem_cons_self _ _)

theorem key_mem_dedupGo {l : List TocItem} {a : TocItem} (ha : a ∈ l) :
    ∀ seen, dedupKey a ∉ seen → dedupKey a ∈ (dedupGo seen l).map dedupKey := by
  induction l with
  | nil => cases ha
  | cons x rest ih =>
    intro seen hs
    simp only [dedupGo]
    split
    · next hx =>
      rcases List.mem_cons.mp ha with rfl | hm
      · exact absurd hx hs
      · exact ih hm seen hs
    · next hx =>
      rcases List.mem_cons.mp ha with rfl | hm
      · simp
      · by_cases he : dedupKey a = dedupKey x
        · simp [he]
        · simp only [List.map_cons, List.mem_cons]
          refine Or.inr (ih hm _ ?_)
          intro hmem
          rcases List.mem_cons.mp hmem with h1 | h1
          · exact he h1
          · exact hs h1

theorem find_dedupGo {seen : List DedupKey} {l : List TocItem} {b : TocItem}
    (h : b ∈ dedupGo seen l) :
    l.find? (fun x => dedupKey x == dedupKey b) = some b := by
  induction l generalizing seen with
  | nil => simp [dedupGo] at h
  | cons a rest ih =>
    simp only [dedupGo] at h
    split at h
    · next ha =>
      have hb := (mem_dedupGo h).2
      have hfa : (dedupKey a == dedupKey b) = false :=
        beq_eq_false_iff_ne.mpr (fun he => hb (he ▸ ha))
      simp only [List.find?_cons, hfa]
      exact ih h
    · next ha =>
      rcases List.mem_cons.mp h with rfl | hm
      · simp only [List.find?_cons, beq_self_eq_true]
      · have hb := (mem_dedupGo hm).2
        have hfa : (dedupKey a == dedupKey b) = false :=
          beq_eq_false_iff_ne.mpr (fun he => hb (he ▸ List.mem_cons_self _ _))
        simp only [List.find?_cons, hfa]
        exact ih hm

theorem dedupGo_eq_self {l : List TocItem} (hn : (l.map dedupKey).Nodup) :
    ∀ seen, (∀ a ∈ l, dedupKey a ∉ seen) → dedupGo seen l = l := by
  induction l with
  | nil => intro seen _; rfl
  | cons a rest ih =>
    intro seen hs
    simp only [dedupGo]
    rw [if_neg (hs a (List.mem_cons_self _ _))]
    have hn' : (∀ x ∈ rest, ¬dedupKey x = dedupKey a) ∧ (rest.map dedupKey).Nodup := by
      simpa using hn
    congr 1
    refine ih hn'.2 _ (fun b hb => ?_)
    intro hmem
    rcases List.mem_cons.mp hmem with h1 | h1
    · exact hn'.1 b hb h1
    · exact hs b (List.mem_cons_of_mem _ hb) h1

theorem dedup_sub {l : List TocItem} {b : TocItem} (h : b ∈ dedup l) : b ∈ l :=
  (mem_dedupGo h).1

/-- C7: for every raw item list, deduplication keeps exactly one item per
distinct `(page, lowercased title, section-or-empty)` key occurring in the
input — the keys of the output are distinct, every input key survives, and
each surviving item is literally the first item of the input carrying its
key (all fields preserved). -/
theorem claim_C7 (l : List TocItem) :
    ((dedup l).map dedupKey).Nodup ∧
    (∀ a ∈ l, dedupKey a ∈ (dedup l).map dedupKey) ∧
    (∀ b ∈ dedup l, l.find? (fun x => dedupKey x == dedupKey b) = some b) :=
  ⟨dedupGo_keys_nodup [] l,
   fun _ ha => key_mem_dedupGo ha [] (by simp),
   fun _ hb => find_dedupGo hb⟩

/-- C7 witness: the dedup properties applied at a concrete list. -/
theorem claim_C7_witness :
    ((dedup [(⟨some 3, "A", some ("S"), none⟩ : TocItem), ⟨some 3, "a", some ("S"), none⟩,
       ⟨some 4, "B", some ("S"), none⟩]).map dedupKey).Nodup ∧
    dedupKey (⟨some 3, "a", some ("S"), none⟩ : TocItem) ∈
      ((dedup [(⟨some 3, "A", some ("S"), none⟩ : TocItem), ⟨some 3, "a", some ("S"), none⟩,
        ⟨some 4, "B", some ("S"), none⟩]).map dedupKey) ∧
    ([(⟨some 3, "A", some ("S"), none⟩ : TocItem), ⟨some 3, "a", some ("S"), none⟩,
       ⟨some 4, "B", some ("S"), none⟩].find?
      (fun x => dedupKey x == dedupKey (⟨some 3, "A", some ("S"), none⟩ : TocItem))) =
      some ⟨some 3, "A", some ("S"), none⟩ := by
  refine ⟨(claim_C7 _).1, (claim_C7 _).2.1 _ (by decide), (claim_C7 _).2.2 _ (by decide)⟩

/-- C8: the deduplicate-and-canonically-sort step is idempotent — applying
it to its own output returns that output unchanged. -/
theorem claim_C8 (l : List TocItem) : dedupSort (dedupSort l) = dedupSort l := by
  unfold dedupSort
  have hperm : List.Perm ((dedup l).insertionSort keyRel) (dedup l) :=
    List.perm_insertionSort keyRel _
  have hnd : (((dedup l).insertionSort keyRel).map dedupKey).Nodup :=
    ((hperm.map dedupKey).nodup_iff).mpr (dedupGo_keys_nodup [] l)
  rw [dedup, dedupGo_eq_self hnd [] (by simp)]
  exact (List.sorted_insertionSort keyRel (dedup l)).insertionSort_eq

/-- C1 (amended): the final item list is sorted by the key (page with the
null sentinel 999, then section with null as the empty string, then
lowercased title).  The sentinel 999 equals the largest valid page rather
than exceeding it, so strict separation of dedup-distinct items holds
whenever both pages are present (as for every item `parse` emits); a
null-page item ties with a page-999 item of equal section and lowercased
title instead of sorting after it. -/
theorem claim_C1 :
    (∀ l : List TocItem, List.Sorted keyRel (dedupSort l)) ∧
    (∀ a b : TocItem, a.page.isSome = true → b.page.isSome = true →
      dedupKey a ≠ dedupKey b → sortKey a ≠ sortKey b) := by
  constructor
  · intro l; exact List.sorted_insertionSort keyRel _
  · intro a b ha hb hne he
    apply hne
    rcases Option.isSome_iff_exists.mp ha with ⟨pa, hpa⟩
    rcases Option.isSome_iff_exists.mp hb with ⟨pb, hpb⟩
    unfold sortKey at he
    rw [hpa, hpb] at he
    simp only [Option.getD_some, Prod.mk.injEq] at he
    unfold dedupKey
    rw [hpa, hpb, he.1, he.2.1, he.2.2]




/-- C1 witness: the amended theorem applied at concrete items. -/
theorem claim_C1_witness :
    List.Sorted keyRel (dedupSort
      [(⟨some 4, "x", some ("S"), none⟩ : TocItem), ⟨some 3, "x", some ("S"), none⟩]) ∧
    sortKey (⟨some 3, "x", some ("S"), none⟩ : TocItem) ≠
      sortKey (⟨some 4, "x", some ("S"), none⟩ : TocItem) :=
  ⟨claim_C1.1 _, claim_C1.2 _ _ (by decide) (by decide) (by decide)⟩

/-- C1 counterexample: an item with unknown page and an item with page 999
have distinct dedup keys but identical sort keys, so the null-page item
does not sort after all numbered pages and the order does not separate the
two (the stable sort leaves them in input order, whichever that is). -/
theorem claim_C1_counterexample :
    dedupKey (⟨none, "a", some ("S"), none⟩ : TocItem) ≠
      dedupKey (⟨some 999, "a", some ("S"), none⟩ : TocItem) ∧
    sortKey (⟨none, "a", some ("S"), none⟩ : TocItem) =
      sortKey (⟨some 999, "a", some ("S"), none⟩ : TocItem) ∧
    dedupSort [(⟨none, "a", some ("S"), none⟩ : TocItem), ⟨some 999, "a", some ("S"), none⟩] =
      [⟨none, "a", some ("S"), none⟩, ⟨some 999, "a", some ("S"), none⟩] ∧
    dedupSort [(⟨some 999, "a", some ("S"), none⟩ : TocItem), ⟨none, "a", some ("S"), none⟩] =
      [⟨some 999, "a", some ("S"), none⟩, ⟨none, "a", some ("S"), none⟩] := by
  refine ⟨by decide, by decide, by decide, by decide⟩

/-- C3 counterexample: contrary to the claim, the line
`"Jane Doe   A reply to last week   5"` scanned right after
`"LETTERS    2"` does produce an item — `LETTERS` is not one of the
suppressed sections (`CONTRIBUTORS` and `THE MAIL` are). -/
theorem claim_C3_counterexample :
    (parse ("LETTERS    2\nJane Doe   A reply to last week   5") ("harpers")).items ≠ [] := by
  decide

/-- C3 (amended): on the two-line input, `LETTERS` is recorded with page 2,
and — because the suppressed administrative sections are exactly
`CONTRIBUTORS` and `THE MAIL` (the letters-to-the-editor section of the
configured vocabulary), not `LETTERS` — the Jane Doe line is extracted by
the author-title-page shape into the item (page 5, title
`"A reply to last week"`, author `"Jane Doe"`, section `LETTERS`). -/
theorem claim_C3 :
    parse ("LETTERS    2\nJane Doe   A reply to last week   5") ("harpers") =
      { issue := none, sectionPages := [("LETTERS", some 2)],
        items := [⟨some 5, "A reply to last week", some ("LETTERS"), some ("Jane Doe")⟩] } := by
  decide

/-- C5: the code contradicts the claim (and its own flag naming): with the
toggle on, the summary block omits the section that has an item and still
lists a section with no items; with the toggle off the section with items
is listed.  The condition `suppress_empty and by_sec.get(sec)` skips
exactly the sections that do have items. -/
theorem claim_C5 :
    summaryLines [("FICTION", some 5)]
        (buildBySec [⟨some 7, "A Story", some ("FICTION"), some ("Jane")⟩]) true false false = [] ∧
    summaryLines [("FICTION", some 5)]
        (buildBySec [⟨some 7, "A Story", some ("FICTION"), some ("Jane")⟩]) false false false =
      ["FICTION (p. 5)"] ∧
    summaryLines [("FICTION", some 5)] [] true false false = ["FICTION (p. 5)"] := by
  refine ⟨by decide, by decide, by decide⟩

/-- C2 counterexample: under an active `FICTION` section, the leader
pattern with trailing author accepts the line `"*** .. 45 - John"` and
appends an item whose title `"***"` contains no alphabetic character — the
alphabetic-title check is not applied in that branch. -/
theorem claim_C2_counterexample :
    (parse ("FICTION\n*** .. 45 - John") ("harpers")).items =
      [⟨some 45, "***", some ("FICTION"), some ("John")⟩] ∧
    alphaSearch ("***") = false := by
  refine ⟨by decide, by decide⟩



theorem lineStep_items (brand : String) (st : ParseState) (raw : String) (la : Option String) :
    ∀ it ∈ (lineStep brand st raw la).1.items,
      it ∈ st.items ∨ ∃ p, it.page = some p ∧ validPage p = true := by
  intro it hit
  simp only [lineStep] at hit
  repeat' split at hit
  all_goals simp only [pushItem] at hit
  all_goals try exact Or.inl hit
  all_goals
    rcases List.mem_append.mp hit with h | h
  all_goals try exact Or.inl h
  all_goals
    first
    | (simp only [List.mem_singleton] at h
       subst h
       exact Or.inr ⟨_, rfl, by simp_all⟩)
    | (rcases List.mem_filterMap.mp h with ⟨m, hm, heq⟩
       split at heq
       · next hv =>
         simp only [Option.some.injEq] at heq
         subst heq
         exact Or.inr ⟨_, rfl, hv⟩
       · cases heq)



theorem parseLinesF_items (brand : String) :
    ∀ (fuel : Nat) (st : ParseState) (lines : List String),
      ∀ it ∈ (parseLinesF brand fuel st lines).items,
        it ∈ st.items ∨ ∃ p, it.page = some p ∧ validPage p = true := by
  intro fuel
  induction fuel with
  | zero =>
    intro st lines it hit
    cases lines with
    | nil => exact Or.inl hit
    | cons a rest => exact Or.inl hit
  | succ f ih =>
    intro st lines it hit
    cases lines with
    | nil => exact Or.inl hit
    | cons raw rest =>
      simp only [parseLinesF] at hit
      rcases hls : lineStep brand st raw rest.head? with ⟨st2, b⟩
      rw [hls] at hit
      have hproj : (lineStep brand st raw rest.head?).1 = st2 := by rw [hls]
      cases b
      · simp only at hit
        rcases ih st2 rest it hit with h | h
        · exact lineStep_items brand st raw rest.head? it (hproj.symm ▸ h)
        · exact Or.inr h
      · simp only at hit
        rcases ih st2 rest.tail it hit with h | h
        · exact lineStep_items brand st raw rest.head? it (hproj.symm ▸ h)
        · exact Or.inr h

/-- C2 (amended): every item emitted by the cascade — over every pattern
branch, input line, and brand — carries a page, and that page lies in
[1, 999]; the alphabetic-character check, however, is enforced only by the
author-title-page, author-page-title, page-title and trailing-number
branches, not by the two leader-with-author branches, the two bare
title-page branches, or the quoted-poetry branch. -/
theorem claim_C2 (text brand : String) :
    ∀ it ∈ (parse text brand).items, ∃ p, it.page = some p ∧ validPage p = true := by
  intro it hit
  have hrfl : (parse text brand).items =
      dedupSort (parseLines brand (parseLinesOf text brand)).items := rfl
  rw [hrfl] at hit
  have h1 : it ∈ dedup (parseLines brand (parseLinesOf text brand)).items :=
    (List.perm_insertionSort keyRel _).mem_iff.mp hit
  have h2 := dedup_sub h1
  rcases parseLinesF_items brand _ _ _ it h2 with h | h
  · cases h
  · exact h

/-- C2 witness: the amended theorem applied to a concrete parse. -/
theorem claim_C2_witness :
    ∃ p, (⟨some 12, "Story", some ("FICTION"), none⟩ : TocItem).page = some p ∧
      validPage p = true :=
  claim_C2 ("FICTION\nStory .... 12") ("harpers") _ (by decide)

theorem spLookup_spSet_ne {sp : SectionPages} {s s' : String} (hne : s' ≠ s) (v : Option Nat) :
    spLookup (spSet sp s v) s' = spLookup sp s' := by
  induction sp with
  | nil =>
    simp only [spSet, spLookup]
    rw [if_neg (Ne.symm hne)]
  | cons e rest ih =>
    simp only [spSet]
    split
    · next he => simp [spLookup, he, Ne.symm hne]
    · next he => simp [spLookup, ih]

theorem spLookup_spSet_self (sp : SectionPages) (s : String) (v : Option Nat) :
    spLookup (spSet sp s v) s = some v := by
  induction sp with
  | nil => simp [spSet, spLookup]
  | cons e rest ih =>
    simp only [spSet]
    split
    · next he => simp [spLookup, he]
    · next he => simp [spLookup, he, ih]

theorem recordSection_preserve {sp : SectionPages} {s' : String} {v : Nat}
    (h : spLookup sp s' = some (some v)) (s : String) (pg : Option Nat) :
    spLookup (recordSection sp s pg) s' = some (some v) := by
  by_cases he : s' = s
  · subst he
    unfold recordSection
    rw [h]
    exact h
  · unfold recordSection
    rcases hl : spLookup sp s with _ | vv
    · rw [spLookup_spSet_ne he]; exact h
    · cases vv
      · rw [spLookup_spSet_ne he]; exact h
      · exact h

theorem recordSection_populate (sp : SectionPages) (s : String) (p : Nat)
    (h : spLookup sp s = some none) :
    spLookup (recordSection sp s (some p)) s = some (some p) := by
  unfold recordSection
  rw [h]
  exact spLookup_spSet_self sp s (some p)

theorem lineStep_sectionPages (brand : String) (st : ParseState) (raw : String)
    (la : Option String) {s : String} {v : Nat}
    (h : spLookup st.sectionPages s = some (some v)) :
    spLookup (lineStep brand st raw la).1.sectionPages s = some (some v) := by
  simp only [lineStep]
  repeat' split
  all_goals first
  | exact h
  | exact recordSection_preserve h _ _

theorem parseLinesF_sectionPages (brand : String) :
    ∀ (fuel : Nat) (st : ParseState) (lines : List String) {s : String} {v : Nat},
      spLookup st.sectionPages s = some (some v) →
      spLookup (parseLinesF brand fuel st lines).sectionPages s = some (some v) := by
  intro fuel
  induction fuel with
  | zero =>
    intro st lines s v h
    cases lines with
    | nil => exact h
    | cons a rest => exact h
  | succ f ih =>
    intro st lines s v h
    cases lines with
    | nil => exact h
    | cons raw rest =>
      simp only [parseLinesF]
      rcases hls : lineStep brand st raw rest.head? with ⟨st2, b⟩
      have hproj : (lineStep brand st raw rest.head?).1 = st2 := by rw [hls]
      have h2 : spLookup st2.sectionPages s = some (some v) :=
        hproj ▸ lineStep_sectionPages brand st raw rest.head? h
      cases b
      · simp only
        exact ih st2 rest h2
      · simp only
        exact ih st2 rest.tail h2

/-- C6: throughout every forward scan, once a section's page is recorded
as a non-null value it never changes (whatever lines follow); and a later
encounter carrying a page populates an entry whose recorded value is
null. -/
theorem claim_C6 :
    (∀ (brand : String) (fuel : Nat) (st : ParseState) (lines : List String)
        (s : String) (v : Nat),
      spLookup st.sectionPages s = some (some v) →
      spLookup (parseLinesF brand fuel st lines).sectionPages s = some (some v)) ∧
    (∀ (sp : SectionPages) (s : String) (p : Nat),
      spLookup sp s = some none →
      spLookup (recordSection sp s (some p)) s = some (some p)) :=
  ⟨fun brand fuel st lines _ _ h => parseLinesF_sectionPages brand fuel st lines h,
   recordSection_populate⟩

/-- C6 witness: both parts applied at concrete states. -/
theorem claim_C6_witness :
    spLookup (parseLinesF ("harpers") 1
        { sec := none, sectionPages := [("FICTION", some 3)], items := [] }
        ["junk line"]).sectionPages ("FICTION") = some (some 3) ∧
    spLookup (recordSection [("ESSAY", none)] ("ESSAY") (some 4)) ("ESSAY") = some (some 4) :=
  ⟨claim_C6.1 ("harpers") 1 _ _ ("FICTION") 3 (by decide),
   claim_C6.2 [("ESSAY", none)] ("ESSAY") 4 (by decide)⟩



/-- C4 (amended): the raw-mode retry catches every failure and keeps the
current result, and the OCR fallback degrades gracefully when the tools
are missing (empty text) or when a tesseract run fails (that page is
skipped and a result is still returned); but — contrary to the claim as
stated — a `pdftoppm` failure inside the OCR fallback is not caught (see
the counterexample). -/
theorem claim_C4 :
    (∀ env : Env, (env.pdftoppmAvail && env.tesseractAvail) = false →
      ocr_first_pages env = Except.ok ("")) ∧
    (∀ (env : Env) (imgs : List Nat), env.runPdftoppm = Except.ok imgs →
      (ocr_first_pages env).isOk = true) ∧
    (∀ (brand : String) (cur : Parsed), rawRetry brand cur (Except.error ()) = cur) := by
  refine ⟨?_, ?_, ?_⟩
  · intro env h
    unfold ocr_first_pages
    cases hp : env.pdftoppmAvail <;> cases ht : env.tesseractAvail <;> simp_all
  · intro env imgs h
    unfold ocr_first_pages
    split
    · rfl
    · rw [h]; rfl
  · intro brand cur
    unfold rawRetry
    split <;> rfl

/-- C4 counterexample: with sparse layout text and available OCR tools, a
failing `pdftoppm` invocation escapes `ocr_first_pages` uncaught and
aborts the whole run — an optional-fallback failure that does propagate to
the caller. -/
theorem claim_C4_counterexample :
    mainModel
      { pdfName := "doc.pdf", extractText := fun _ => Except.error (),
        extractPage := fun _ _ => Except.error (), pdftoppmAvail := true,
        tesseractAvail := true, runPdftoppm := Except.error (),
        runTesseract := fun _ => Except.ok none }
      ("atlantic") = Except.error () := by
  rfl

/-- C4 witness: the amended theorem applied at concrete environments. -/
theorem claim_C4_witness :
    ocr_first_pages
      { pdfName := "a.pdf", extractText := fun _ => Except.ok (""),
        extractPage := fun _ _ => Except.ok (""), pdftoppmAvail := false,
        tesseractAvail := true, runPdftoppm := Except.ok [],
        runTesseract := fun _ => Except.ok none } = Except.ok ("") ∧
    (ocr_first_pages
      { pdfName := "a.pdf", extractText := fun _ => Except.ok (""),
        extractPage := fun _ _ => Except.ok (""), pdftoppmAvail := true,
        tesseractAvail := true, runPdftoppm := Except.ok [1, 2],
        runTesseract := fun _ => Except.error () }).isOk = true ∧
    rawRetry ("atlantic") { issue := none, sectionPages := [], items := [] }
      (Except.error ()) = { issue := none, sectionPages := [], items := [] } :=
  ⟨claim_C4.1 _ (by decide), claim_C4.2.1 _ [1, 2] rfl, claim_C4.2.2 _ _⟩

/-- C9: for a non-Harper's brand whose layout-mode parse has fewer than 4
items, a successful raw-mode parse with strictly more items replaces the
result as a whole triple (issue title, section map and items together),
and one with equally many or fewer items leaves the layout result intact
as a whole — no field-by-field merging exists in the selection. -/
theorem claim_C9 (brand : String) (cur r2 : Parsed)
    (hb : brand ≠ "harpers") (hlen : cur.items.length < 4) :
    (r2.items.length > cur.items.length → rawRetry brand cur (Except.ok r2) = r2) ∧
    (¬r2.items.length > cur.items.length → rawRetry brand cur (Except.ok r2) = cur) := by
  constructor <;> intro h <;> unfold rawRetry <;> rw [if_pos ⟨hb, hlen⟩] <;> simp [h]

/-- C9 witness: the replacement case at concrete results. -/
theorem claim_C9_witness :
    rawRetry ("atlantic") { issue := none, sectionPages := [], items := [] }
      (Except.ok
        { issue := some ("The Atlantic 2023"), sectionPages := [("IDEAS", some 9)],
          items := [⟨some 9, "An Idea", some ("IDEAS"), none⟩] }) =
      { issue := some ("The Atlantic 2023"), sectionPages := [("IDEAS", some 9)],
        items := [⟨some 9, "An Idea", some ("IDEAS"), none⟩] } :=
  (claim_C9 ("atlantic") _ _ (by decide) (by decide)).1 (by decide)

/-- C10: in the author-first-with-leading-page branch, the following line
is appended to the title (joined by an em dash) and consumed exactly when
the current section is not `POEMS`, a following line exists, and its
stripped text does not end in a 1–3-digit number, is not recognized as a
section header, and is 10–200 characters long; in `POEMS`, or when any
condition fails, the item keeps its own title and the following line is
processed normally. -/
theorem claim_C10 (brand : String) (st : ParseState) (raw : String) (la : Option String)
    (s author pg title0 : String)
    (hsec : st.sec = some s)
    (hdate : reTest DATE_RE (pyUpper (pyStrip raw)) = false)
    (hnoise : isNoiseLine (pyUpper (pyStrip raw)) = false)
    (hts : trySection brand (pyStrip raw) = none)
    (hsup : (decide (s = "CONTRIBUTORS") || decide (s = "THE MAIL")) = false)
    (hm1 : mTitleDotsPageAuthor (pyStrip raw) = none)
    (hm2 : mTitleAuthorDotsPage (pyStrip raw) = none)
    (hm3 : mAuthorTitlePage (pyStrip raw) = none)
    (hm4 : mTitleDotsPage (pyStrip raw) = none)
    (hm5 : mTitleSpacesPage (pyStrip raw) = none)
    (hm6 : mAuthorPageTitle (pyStrip raw) = some (author, pg, title0))
    (hvp : validPage (natOfDigits pg) = true)
    (hal : alphaSearch (pyStrip title0) = true) :
    (∀ nx, la = some nx → s ≠ "POEMS" → contLineOK brand (pyStrip nx) = true →
      lineStep brand st raw la =
        (pushItem st ⟨some (natOfDigits pg), pyStrip title0 ++ " — " ++ pyStrip nx,
          some s, some (pyStrip author)⟩, true)) ∧
    (∀ nx, la = some nx → s ≠ "POEMS" → contLineOK brand (pyStrip nx) = false →
      lineStep brand st raw la =
        (pushItem st ⟨some (natOfDigits pg), pyStrip title0, some s,
          some (pyStrip author)⟩, false)) ∧
    (∀ nx, la = some nx → s = "POEMS" →
      lineStep brand st raw la =
        (pushItem st ⟨some (natOfDigits pg), pyStrip title0, some s,
          some (pyStrip author)⟩, false)) ∧
    (la = none →
      lineStep brand st raw la =
        (pushItem st ⟨some (natOfDigits pg), pyStrip title0, some s,
          some (pyStrip author)⟩, false)) := by
  refine ⟨?_, ?_, ?_, ?_⟩
  · intro nx hla hp hc
    subst hla
    simp only [lineStep, hdate, hnoise, hts, hsec, hsup, hm1, hm2, hm3, hm4, hm5, hm6,
      hvp, hal, hc, Bool.false_eq_true, if_false, Bool.and_self, if_true, hp, ne_eq,
      not_false_eq_true, if_pos]
  · intro nx hla hp hc
    subst hla
    simp only [lineStep, hdate, hnoise, hts, hsec, hsup, hm1, hm2, hm3, hm4, hm5, hm6,
      hvp, hal, hc, Bool.false_eq_true, if_false, Bool.and_self, if_true, hp, ne_eq,
      not_false_eq_true, if_pos]
  · intro nx hla hp
    subst hla hp
    simp only [lineStep, hdate, hnoise, hts, hsec, hsup, hm1, hm2, hm3, hm4, hm5, hm6,
      hvp, hal, Bool.false_eq_true, if_false, Bool.and_self, ne_eq, not_true_eq_false,
      if_true]
  · intro hla
    subst hla
    simp only [lineStep, hdate, hnoise, hts, hsec, hsup, hm1, hm2, hm3, hm4, hm5, hm6,
      hvp, hal, Bool.false_eq_true, if_false, Bool.and_self, if_true]



/-- C10 witness: the continuation case at a concrete line. -/
theorem claim_C10_witness :
    lineStep ("harpers") { sec := some ("FICTION"), sectionPages := [], items := [] }
        ("John Smith  23  The Great Escape") (some ("a continuation line here")) =
      (pushItem { sec := some ("FICTION"), sectionPages := [], items := [] }
        ⟨some 23, "The Great Escape — a continuation line here", some ("FICTION"),
          some ("John Smith")⟩, true) :=
  (claim_C10 ("harpers") { sec := some ("FICTION"), sectionPages := [], items := [] }
      ("John Smith  23  The Great Escape") (some ("a continuation line here"))
      ("FICTION") ("John Smith") ("23") ("The Great Escape")
      rfl (by decide) (by decide) (by decide) (by decide) (by decide) (by decide)
      (by decide) (by decide) (by decide) (by decide) (by decide) (by decide)).1
    ("a continuation line here") rfl (by decide) (by decide)

end MagToc
